import Mathlib

/-!
Shallow embedding of `pkg/utils/selector.go` (chaos-mesh selection pipeline,
requirement-matching engine and sampling algorithms), together with proofs
about the embedded definitions.

Modelling conventions:
* Go maps (`map[string]string`, `map[string][]string`) are modelled as
  association lists in iteration order.
* The shared `math/rand` generator is modelled as an explicit stream of raw
  draws `stream : Nat → Nat`; `rand.Intn n` at draw position `i` is
  `stream i % n` (every sequence of values in `[0, n)` is realisable this way).
* The possibly unbounded rejection loop of `RandomFixedIndexes` takes a fuel
  parameter; exhausted fuel yields `none` (the Go loop simply keeps running).
* Fallible Go functions returning `(T, error)` become `Except SelErr T`.
* `strconv.Atoi` is modelled over 64-bit signed range.
* The Kubernetes client is an explicit record of fetch/list functions;
  `storeClient` instantiates it with an in-memory snapshot, the behaviour
  assumed of the API server (label/field selection happens server side).
-/

set_option maxRecDepth 10000

namespace ChaosSelector

/-! ## Strings, integers and key sets -/

/-- Model of Go `strconv.Atoi`: optional sign, decimal digits, 64-bit range. -/
def goAtoi (s : String) : Except String Int :=
  match s.data with
  | [] => .error "invalid syntax"
  | c :: rest =>
    let signDigits : Bool × List Char :=
      if c == '-' then (true, rest)
      else if c == '+' then (false, rest)
      else (false, c :: rest)
    let neg := signDigits.1
    let digits := signDigits.2
    if digits.isEmpty then .error "invalid syntax"
    else if digits.all (fun d => d.isDigit) then
      let n : Nat := digits.foldl (fun acc d => acc * 10 + (d.toNat - 48)) 0
      let v : Int := if neg then -(n : Int) else (n : Int)
      if v < -(2 ^ 63) || v > 2 ^ 63 - 1 then .error "value out of range" else .ok v
    else .error "invalid syntax"

/-- A Go `labels.Set` / `map[string]string`, as an association list. -/
abbrev KVSet := List (String × String)

/-- Key lookup in a `labels.Set` (`ls.Get(key)` when present). -/
def lookupKV (s : KVSet) (k : String) : Option String :=
  (s.find? (fun kv => kv.1 == k)).map (fun kv => kv.2)

/-- Key membership in a `labels.Set` (`ls.Has(key)`). -/
def hasKey (s : KVSet) (k : String) : Bool :=
  (s.find? (fun kv => kv.1 == k)).isSome

/-! ## Requirements (k8s.io/apimachinery `labels`/`selection`) -/

/-- The operators of `k8s.io/apimachinery/pkg/selection`
(`DoubleEquals` is merged into `equals`; they evaluate identically). -/
inductive Operator where
  | exists_
  | doesNotExist
  | equals
  | notEquals
  | in_
  | notIn
  | gt
  | lt
deriving DecidableEq, Repr

/-- One `labels.Requirement`. -/
structure Requirement where
  key : String
  op : Operator
  values : List String
deriving DecidableEq, Repr

/-- `labels.Requirement.Matches`, modelled from the semantics of the external
k8s labels library: existence checks look only at the key; (in)equality checks
compare the looked-up value against the requirement's value set; `gt`/`lt`
parse both sides as integers and fail (match `false`) on parse errors. -/
def reqMatches (r : Requirement) (s : KVSet) : Bool :=
  match r.op with
  | .exists_ => hasKey s r.key
  | .doesNotExist => !hasKey s r.key
  | .equals | .in_ =>
    match lookupKV s r.key with
    | none => false
    | some v => r.values.contains v
  | .notEquals | .notIn =>
    match lookupKV s r.key with
    | none => true
    | some v => !r.values.contains v
  | .gt | .lt =>
    match lookupKV s r.key with
    | none => false
    | some v =>
      match goAtoi v, r.values with
      | .ok lsVal, [rv] =>
        match goAtoi rv with
        | .ok rVal => if r.op == .gt then decide (lsVal > rVal) else decide (lsVal < rVal)
        | .error _ => false
      | _, _ => false

/-- A parsed `labels.Selector` (internally a list of requirements);
`sel.Matches s` is the conjunction of its requirements. -/
abbrev Selector := List Requirement

/-- `labels.Selector.Matches` for a full selector: every requirement matches. -/
def selMatches (sel : Selector) (s : KVSet) : Bool :=
  sel.all (fun r => reqMatches r s)

/-- `labels.SelectorFromSet`: one equality requirement per map entry. -/
def selectorFromSet (m : KVSet) : Selector :=
  m.map (fun kv => { key := kv.1, op := .equals, values := [kv.2] })

/-- Split a character list at commas (the structurally recursive equivalent
of `strings.Split(s, ",")` over the character list). -/
def splitCommaChars : List Char → List (List Char)
  | [] => [[]]
  | c :: rest =>
    if c == ',' then [] :: splitCommaChars rest
    else
      match splitCommaChars rest with
      | [] => [[c]]
      | t :: ts => (c :: t) :: ts

/-- Modelled from the spec: one token of a requirement expression.  A leading
`!` negation marker yields a `DoesNotExist` requirement on the remainder, any
other token an `Exists` requirement on the token itself. -/
def tokenToRequirement (cs : List Char) : Requirement :=
  if cs.headD ' ' == '!' then
    { key := String.mk cs.tail, op := .doesNotExist, values := [] }
  else { key := String.mk cs, op := .exists_, values := [] }

/-- Modelled from the spec: the requirement-expression parser behind
`parseSelector` (`labels.Parse` is an external collaborator).  The expression
is split on commas and each token becomes an existence requirement via
`tokenToRequirement`; the empty expression parses to the empty selector. -/
def parseTokens (str : String) : Selector :=
  if str == "" then []
  else (splitCommaChars str.data).map tokenToRequirement

/-! ## Pods, nodes, errors -/

/-- The slice of `v1.Pod` the selector code reads: identity, labels,
annotations, `Status.Phase` and `Spec.NodeName`.  (`ns` stands for the Go
field `Namespace`; `namespace` is a Lean keyword.) -/
structure Pod where
  ns : String
  name : String
  labels : KVSet
  annotations : KVSet
  phase : String
  nodeName : String
deriving DecidableEq, Repr

/-- Placeholder pod used only to give list indexing a default; all indexing
sites are guarded by in-range facts. -/
def dummyPod : Pod :=
  { ns := "", name := "", labels := [], annotations := [], phase := "", nodeName := "" }

/-- The slice of `v1.Node` the selector code reads. -/
structure Node where
  name : String
  labels : KVSet
deriving DecidableEq, Repr

/-- The errors produced by the embedded functions.  Each constructor records
which Go error site it stands for:
* `clientError` – an error returned by a `client.Client` call;
* `unsupportedOperator` – `fmt.Errorf("unsupported operator: %s", ...)`;
* `atoiError` – a `strconv.Atoi` failure;
* `valueBelowOrEqualZero` – `"cannot select any pod as value below or equal 0"`;
* `invalidPercentage` – `"fixed percentage value of %d is invalid..."`;
* `emptyPodList` – `"cannot generate pods from empty list"`;
* `noPodSelected` – `"no pod is selected"`;
* `modeNotSupported` – `"mode %s not supported"`. -/
inductive SelErr where
  | clientError (msg : String)
  | unsupportedOperator (op : Operator)
  | atoiError (msg : String)
  | valueBelowOrEqualZero
  | invalidPercentage (p : Int)
  | emptyPodList
  | noPodSelected
  | modeNotSupported (mode : String)
deriving DecidableEq, Repr

/-! ## The requirement-matching filter stages -/

/-- The requirement-partitioning loop shared (textually duplicated in the
source) by `filterByNamespaceSelector` and `filterByPhaseSelector`: `Exists`
requirements go to the including group, `DoesNotExist` to the excluding group,
anything else aborts with the unsupported-operator error. -/
def splitRequirements : List Requirement → Except SelErr (List Requirement × List Requirement)
  | [] => .ok ([], [])
  | req :: rest =>
    match req.op with
    | .exists_ =>
      match splitRequirements rest with
      | .error er => .error er
      | .ok (incl, excl) => .ok (req :: incl, excl)
    | .doesNotExist =>
      match splitRequirements rest with
      | .error er => .error er
      | .ok (incl, excl) => .ok (incl, req :: excl)
    | op => .error (.unsupportedOperator op)

/-- The per-item evaluation loop of the namespace/phase filters: included when
there is no including requirement or some including requirement matches
(first-match break), then excluded as soon as one excluding requirement fails
to match (first-failure break). -/
def reqKeep (reqIncl reqExcl : List Requirement) (s : KVSet) : Bool :=
  (reqIncl.isEmpty || reqIncl.any (fun r => reqMatches r s)) &&
    reqExcl.all (fun r => reqMatches r s)

/-- `filterByNamespaceSelector`: empty selector keeps everything, otherwise
split the requirements and keep the pods whose synthetic single-key set
`{pod.Namespace: ""}` survives the include/exclude evaluation. -/
def filterByNamespaceSelector (pods : List Pod) (namespaces : Selector) :
    Except SelErr (List Pod) :=
  if namespaces.isEmpty then .ok pods
  else
    match splitRequirements namespaces with
    | .error er => .error er
    | .ok (reqIncl, reqExcl) =>
      .ok (pods.filter (fun pod => reqKeep reqIncl reqExcl [(pod.ns, "")]))

/-- `filterByPhaseSelector`: identical to the namespace filter but evaluated
against the synthetic set `{string(pod.Status.Phase): ""}`. -/
def filterByPhaseSelector (pods : List Pod) (phases : Selector) :
    Except SelErr (List Pod) :=
  if phases.isEmpty then .ok pods
  else
    match splitRequirements phases with
    | .error er => .error er
    | .ok (reqIncl, reqExcl) =>
      .ok (pods.filter (fun pod => reqKeep reqIncl reqExcl [(pod.phase, "")]))

/-- `filterByAnnotations`: empty selector keeps everything, otherwise keep the
pods whose annotation set matches the whole selector (`annotations.Matches`);
note there is no operator check here, unlike the namespace/phase filters. -/
def filterByAnnotations (pods : List Pod) (annotations : Selector) : List Pod :=
  if annotations.isEmpty then pods
  else pods.filter (fun pod => selMatches annotations pod.annotations)

/-- `filterPodByNode` inner loop: one copy of `pod` per node whose name equals
the pod's assigned node name. -/
def nodeMatches (pod : Pod) : List Node → List Pod
  | [] => []
  | node :: rest =>
    if pod.nodeName == node.name then pod :: nodeMatches pod rest
    else nodeMatches pod rest

/-- `filterPodByNode` outer loop over the pods. -/
def filterPodByNodeAux : List Pod → List Node → List Pod
  | [], _ => []
  | pod :: rest, nodes => nodeMatches pod nodes ++ filterPodByNodeAux rest nodes

/-- `filterPodByNode`: empty node list short-circuits to the empty result,
otherwise the nested loops above. -/
def filterPodByNode (pods : List Pod) (nodes : List Node) : List Pod :=
  if nodes.length == 0 then [] else filterPodByNodeAux pods nodes

/-! ## Namespace allow/deny policy -/

/-- The two fields of `common.ControllerCfg` read by `IsAllowedNamespaces`. -/
structure ControllerCfg where
  allowedNamespaces : String
  ignoredNamespaces : String
deriving DecidableEq, Repr

/-- `IsAllowedNamespaces`, parametrised by the external `regexp.MatchString`
(`rmatch pattern s`): a configured allow pattern must match (errors deny), an
otherwise configured deny pattern must not match (errors deny), and with
neither configured everything is allowed. -/
def IsAllowedNamespaces (rmatch : String → String → Except String Bool)
    (cfg : ControllerCfg) (ns : String) : Bool :=
  if cfg.allowedNamespaces != "" then
    match rmatch cfg.allowedNamespaces ns with
    | .error _ => false
    | .ok matched => matched
  else if cfg.ignoredNamespaces != "" then
    match rmatch cfg.ignoredNamespaces ns with
    | .error _ => false
    | .ok matched => !matched
  else true

/-- `filterByNamespaces`: keep the pods whose namespace passes the policy
(the dropped ones are only logged). -/
def filterByNamespaces (rmatch : String → String → Except String Bool)
    (cfg : ControllerCfg) (pods : List Pod) : List Pod :=
  pods.filter (fun pod => IsAllowedNamespaces rmatch cfg pod.ns)

/-! ## The cluster client -/

/-- Result of a single-item `client.Client.Get`: found, the `IsNotFound`
error, or any other (transport/backend) error. -/
inductive GetResult (α : Type) where
  | found (x : α)
  | notFound
  | err (msg : String)
deriving DecidableEq, Repr

/-- `client.ListOptions`: an optional label selector and an optional field
selector, both built with `SelectorFromSet` from the spec's maps. -/
structure ListOptions where
  labelSelector : Option KVSet
  fieldSelector : Option KVSet
deriving DecidableEq, Repr

/-- The `client.Client` operations `SelectPods` issues. -/
structure Client where
  getPod : String → String → GetResult Pod
  listPods : ListOptions → Except String (List Pod)
  getNode : String → GetResult Node
  listNodes : ListOptions → Except String (List Node)

/-- Whether a pod matches one field-selector entry, for the core `v1.Pod`
field paths the API server supports. -/
def fieldMatch (p : Pod) (k v : String) : Bool :=
  if k == "metadata.name" then p.name == v
  else if k == "metadata.namespace" then p.ns == v
  else if k == "spec.nodeName" then p.nodeName == v
  else if k == "status.phase" then p.phase == v
  else false

/-- Whether a pod matches a `ListOptions` (label selector as an AND of
equalities, field selector as an AND of field matches; absent selectors match
everything).  This is the server-side filtering assumed of `client.List`. -/
def listMatchPod (opts : ListOptions) (p : Pod) : Bool :=
  (match opts.labelSelector with
   | none => true
   | some m => selMatches (selectorFromSet m) p.labels) &&
  (match opts.fieldSelector with
   | none => true
   | some m => m.all (fun kv => fieldMatch p kv.1 kv.2))

/-- Whether a node matches a `ListOptions` label selector. -/
def listMatchNode (opts : ListOptions) (n : Node) : Bool :=
  match opts.labelSelector with
  | none => true
  | some m => selMatches (selectorFromSet m) n.labels

/-- A client backed by an in-memory snapshot of the cluster: `Get` finds the
first item with the requested identity, `List` filters the snapshot. -/
def storeClient (podStore : List Pod) (nodeStore : List Node) : Client where
  getPod := fun ns name =>
    match podStore.find? (fun p => p.ns == ns && p.name == name) with
    | some p => .found p
    | none => .notFound
  listPods := fun opts => .ok (podStore.filter (listMatchPod opts))
  getNode := fun name =>
    match nodeStore.find? (fun n => n.name == name) with
    | some n => .found n
    | none => .notFound
  listNodes := fun opts => .ok (nodeStore.filter (listMatchNode opts))

/-! ## The selector spec and the selection pipeline -/

/-- `v1alpha1.SelectorSpec`, with Go maps as association lists. -/
structure SelectorSpec where
  pods : List (String × List String)
  labelSelectors : KVSet
  fieldSelectors : KVSet
  nodes : List String
  nodeSelectors : KVSet
  namespaces : List String
  annotationSelectors : KVSet
  podPhaseSelectors : List String
deriving DecidableEq, Repr

/-- `strings.Join(l, ",")`. -/
def joinComma (l : List String) : String :=
  String.intercalate "," l

/-- Modelled from the spec: `label.Label(selector.AnnotationSelectors).String()`
(package `pkg/label` is not part of the analysed source).  Per the spec the
annotation map is rendered to a textual expression in which only key presence
is used, so the rendering lists the keys, comma-joined, each becoming an
`Exists` token under `parseTokens`. -/
def labelString (m : KVSet) : String :=
  joinComma (m.map (fun kv => kv.1))

/-- `parseSelector`: parse a requirement expression (via the spec-modelled
token grammar; the plumbing keeps the Go `(labels.Selector, error)` shape). -/
def parseSelector (str : String) : Except SelErr Selector :=
  .ok (parseTokens str)

/-- The explicit-pick inner loop of `SelectPods` for one namespace: fetch each
listed name; found pods are collected, not-found is skipped (only logged), any
other error aborts. -/
def resolveNames (c : Client) (ns : String) : List String → Except SelErr (List Pod)
  | [] => .ok []
  | name :: rest =>
    match c.getPod ns name with
    | .found pod =>
      match resolveNames c ns rest with
      | .error er => .error er
      | .ok ps => .ok (pod :: ps)
    | .notFound => resolveNames c ns rest
    | .err msg => .error (.clientError msg)

/-- The explicit-pick loop of `SelectPods` over the `Pods` map entries.  (The
per-namespace `IsAllowedNamespaces` call in this branch only logs; it filters
nothing, so it does not appear here.) -/
def resolveExplicitPods (c : Client) : List (String × List String) → Except SelErr (List Pod)
  | [] => .ok []
  | (ns, names) :: rest =>
    match resolveNames c ns names with
    | .error er => .error er
    | .ok ps =>
      match resolveExplicitPods c rest with
      | .error er => .error er
      | .ok rest2 => .ok (ps ++ rest2)

/-- The node-name resolution loop of `SelectPods`: fetch each listed node name
and keep the successes; every `Get` error (not-found or otherwise) is silently
skipped. -/
def resolveNodes (c : Client) : List String → List Node
  | [] => []
  | name :: rest =>
    match c.getNode name with
    | .found node => node :: resolveNodes c rest
    | _ => resolveNodes c rest

/-- `SelectPods`: the selection pipeline.  A non-empty explicit `Pods` map is
resolved and returned immediately; otherwise a bulk list with the label/field
selectors feeds the node filter (when node inputs are present), the namespace
allow/deny policy filter, and the namespace/annotation/phase requirement
filters, in that order. -/
def SelectPods (rmatch : String → String → Except String Bool) (cfg : ControllerCfg)
    (c : Client) (selector : SelectorSpec) : Except SelErr (List Pod) :=
  if selector.pods.length > 0 then
    resolveExplicitPods c selector.pods
  else
    match c.listPods
      { labelSelector :=
          if selector.labelSelectors.length > 0 then some selector.labelSelectors else none
        fieldSelector :=
          if selector.fieldSelectors.length > 0 then some selector.fieldSelectors else none } with
    | .error msg => .error (.clientError msg)
    | .ok podItems =>
      match
        (if selector.nodes.length > 0 || selector.nodeSelectors.length > 0 then
          let nodesByName :=
            if selector.nodes.length > 0 then resolveNodes c selector.nodes else []
          match
            (if selector.nodeSelectors.length > 0 then
              c.listNodes { labelSelector := some selector.nodeSelectors, fieldSelector := none }
            else .ok []) with
          | .error msg => .error (.clientError msg)
          | .ok nodesBySel => .ok (filterPodByNode podItems (nodesByName ++ nodesBySel))
        else .ok podItems : Except SelErr (List Pod)) with
      | .error er => .error er
      | .ok pods1 =>
        let pods2 := filterByNamespaces rmatch cfg pods1
        match parseSelector (joinComma selector.namespaces) with
        | .error er => .error er
        | .ok namespaceSelector =>
          match filterByNamespaceSelector pods2 namespaceSelector with
          | .error er => .error er
          | .ok pods3 =>
            match parseSelector (labelString selector.annotationSelectors) with
            | .error er => .error er
            | .ok annotationsSelector =>
              let pods4 := filterByAnnotations pods3 annotationsSelector
              match parseSelector (joinComma selector.podPhaseSelectors) with
              | .error er => .error er
              | .ok phaseSelector =>
                match filterByPhaseSelector pods4 phaseSelector with
                | .error er => .error er
                | .ok pods5 => .ok pods5

/-! ## The membership tester -/

/-- The explicit-pods scan of `CheckPodMeetSelector`.  `meet` persists across
entries; an entry whose namespace equals the pod's namespace sets `meet` when
one of its names matches, and the scan aborts with `false` when `meet` is
still unset after such an entry.  Entries with a different namespace are
skipped, so a pod whose namespace matches no entry falls through with `true`. -/
def podsMapLoop (pod : Pod) (meet : Bool) : List (String × List String) → Bool
  | [] => true
  | (ns, names) :: rest =>
    if pod.ns == ns then
      let meet2 := meet || names.any (fun name => pod.name == name)
      if !meet2 then false else podsMapLoop pod meet2 rest
    else podsMapLoop pod meet rest

/-- `CheckPodMeetSelector`: the single-entity membership tester.  Explicit-pods
scan, then label-selector check, then the namespace/annotation/phase stages
run on the singleton list `[pod]`; node and field constraints are not
evaluated. -/
def CheckPodMeetSelector (pod : Pod) (selector : SelectorSpec) : Except SelErr Bool :=
  if selector.pods.length > 0 && !(podsMapLoop pod false selector.pods) then .ok false
  else if selector.labelSelectors.length > 0 &&
      (pod.labels.length == 0 ||
        !(selMatches (selectorFromSet selector.labelSelectors) pod.labels)) then .ok false
  else
    match parseSelector (joinComma selector.namespaces) with
    | .error er => .error er
    | .ok namespaceSelector =>
      match filterByNamespaceSelector [pod] namespaceSelector with
      | .error er => .error er
      | .ok pods1 =>
        match parseSelector (labelString selector.annotationSelectors) with
        | .error er => .error er
        | .ok annotationsSelector =>
          let pods2 := filterByAnnotations pods1 annotationsSelector
          match parseSelector (joinComma selector.podPhaseSelectors) with
          | .error er => .error er
          | .ok phaseSelector =>
            match filterByPhaseSelector pods2 phaseSelector with
            | .error er => .error er
            | .ok pods3 => .ok (decide (pods3.length > 0))

/-! ## Random sampling -/

/-- The rejection-sampling loop of `RandomFixedIndexes`: draw
`stream pos % range + start`, skip duplicates, stop once `count` indices are
collected (returned in draw order).  `fuel` bounds the number of iterations of
the Go `for` loop; running out yields `none`. -/
def rfiLoop (stream : Nat → Nat) (start range count : Nat) :
    Nat → Nat → List Nat → Option (List Nat)
  | 0, _, acc => if acc.length ≥ count then some acc.reverse else none
  | fuel + 1, pos, acc =>
    if acc.length ≥ count then some acc.reverse
    else
      let index := stream pos % range + start
      if acc.contains index then rfiLoop stream start range count fuel (pos + 1) acc
      else rfiLoop stream start range count fuel (pos + 1) ((index : Nat) :: acc)

/-- `RandomFixedIndexes(start, end, count)` over the half-open range
`[start, end)`: empty when `end < start`; the full range in ascending order
when `count > end - start` (strict, per the source); otherwise the rejection
loop. -/
def RandomFixedIndexes (stream : Nat → Nat) (fuel : Nat)
    (start end_ count : Nat) : Option (List Nat) :=
  if end_ < start then some []
  else if count > end_ - start then some (List.range' start (end_ - start))
  else rfiLoop stream start (end_ - start) count fuel 0 []

/-- `getFixedSubListFromPodList`: pick the pods at the sampled indices. -/
def getFixedSubListFromPodList (stream : Nat → Nat) (fuel : Nat)
    (pods : List Pod) (num : Nat) : Option (List Pod) :=
  match RandomFixedIndexes stream fuel 0 pods.length num with
  | none => none
  | some indexes => some (indexes.map (fun index => pods.getD index dummyPod))

/-! ## Sampling modes (`v1alpha1.PodMode` is a string type) -/

def OnePodMode : String := "one"
def AllPodMode : String := "all"
def FixedPodMode : String := "fixed"
def FixedPercentPodMode : String := "fixed-percent"
def RandomMaxPercentPodMode : String := "random-max-percent"

/-- `filterPodsByMode`: empty pools fail before the mode switch; then the five
modes of the sampler (the percentage count `int(math.Floor(float64(len) *
float64(p) / 100))` is exact integer arithmetic for every representable pool
size, hence `Nat` division here).  The random stream is consumed one draw for
`one` / the random-max percentage, then (shifted by one for random-max) by the
fixed-index sampler. -/
def filterPodsByMode (stream : Nat → Nat) (fuel : Nat) (pods : List Pod)
    (mode : String) (value : String) : Option (Except SelErr (List Pod)) :=
  if pods.length == 0 then some (.error .emptyPodList)
  else if mode == OnePodMode then
    some (.ok [pods.getD (stream 0 % pods.length) dummyPod])
  else if mode == AllPodMode then
    some (.ok pods)
  else if mode == FixedPodMode then
    match goAtoi value with
    | .error msg => some (.error (.atoiError msg))
    | .ok num0 =>
      let num : Int := if (pods.length : Int) < num0 then (pods.length : Int) else num0
      if num ≤ 0 then some (.error .valueBelowOrEqualZero)
      else
        match getFixedSubListFromPodList stream fuel pods num.toNat with
        | none => none
        | some l => some (.ok l)
  else if mode == FixedPercentPodMode then
    match goAtoi value with
    | .error msg => some (.error (.atoiError msg))
    | .ok percentage =>
      if percentage == 0 then some (.error .valueBelowOrEqualZero)
      else if percentage < 0 || percentage > 100 then
        some (.error (.invalidPercentage percentage))
      else
        match getFixedSubListFromPodList stream fuel pods
            (pods.length * percentage.toNat / 100) with
        | none => none
        | some l => some (.ok l)
  else if mode == RandomMaxPercentPodMode then
    match goAtoi value with
    | .error msg => some (.error (.atoiError msg))
    | .ok maxPercentage =>
      if maxPercentage == 0 then some (.error .valueBelowOrEqualZero)
      else if maxPercentage < 0 || maxPercentage > 100 then
        some (.error (.invalidPercentage maxPercentage))
      else
        let percentage := stream 0 % (maxPercentage.toNat + 1)
        match getFixedSubListFromPodList (fun i => stream (i + 1)) fuel pods
            (pods.length * percentage / 100) with
        | none => none
        | some l => some (.ok l)
  else some (.error (.modeNotSupported mode))

/-- The `SelectSpec` interface: selector, mode and value of an experiment. -/
structure SelectSpecData where
  selector : SelectorSpec
  mode : String
  value : String

/-- `SelectAndFilterPods`: run the pipeline, fail with `"no pod is selected"`
on an empty selection, otherwise sample by mode.  (The `mock.On` test hooks of
the source are disabled in production and not modelled.) -/
def SelectAndFilterPods (stream : Nat → Nat) (fuel : Nat)
    (rmatch : String → String → Except String Bool) (cfg : ControllerCfg)
    (c : Client) (spec : SelectSpecData) : Option (Except SelErr (List Pod)) :=
  match SelectPods rmatch cfg c spec.selector with
  | .error er => some (.error er)
  | .ok pods =>
    if pods.length == 0 then some (.error .noPodSelected)
    else filterPodsByMode stream fuel pods spec.mode spec.value

/-! ## Auxiliary predicates used by the theorem statements -/

/-- The per-item keep condition of the namespace/phase filters as the spec
words it: included when there is no `Exists` requirement or some `Exists`
requirement's key is present in the set, and not excluded, i.e. no
`DoesNotExist` requirement's key is present in the set. -/
def specKeep (reqs : Selector) (s : KVSet) : Bool :=
  (reqs.all (fun r => decide (r.op ≠ .exists_)) ||
    reqs.any (fun r => decide (r.op = .exists_) && hasKey s r.key)) &&
  !(reqs.any (fun r => decide (r.op = .doesNotExist) && hasKey s r.key))

/-- The keep condition actually computed by the filters: `reqKeep` applied to
the requirement groups produced by `splitRequirements`. -/
def selKeep (reqs : Selector) (s : KVSet) : Bool :=
  reqKeep (reqs.filter (fun r => decide (r.op = .exists_)))
    (reqs.filter (fun r => decide (r.op = .doesNotExist))) s

/-- Whether a pipeline result is a success. -/
def isOkResult : Except SelErr (List Pod) → Bool
  | .ok _ => true
  | .error _ => false

/-- Whether a pipeline result is a success whose list contains the pod. -/
def okContainsPod (r : Except SelErr (List Pod)) (pod : Pod) : Bool :=
  match r with
  | .ok l => decide (pod ∈ l)
  | .error _ => false

/-- Whether a filter result is the unsupported-operator error. -/
def isUnsupportedOpError (r : Except SelErr (List Pod)) : Bool :=
  match r with
  | .error (.unsupportedOperator _) => true
  | _ => false

/-! ## Concrete fixtures for witnesses and counterexamples -/

/-- A regex matcher that matches everything (policy behaviour irrelevant). -/
def rmatchTrue : String → String → Except String Bool := fun _ _ => .ok true

/-- A regex matcher deciding by literal pattern equality. -/
def rmatchEq : String → String → Except String Bool := fun pat s => .ok (pat == s)

/-- Unconfigured namespace policy: allow everything. -/
def cfg0 : ControllerCfg := { allowedNamespaces := "", ignoredNamespaces := "" }

/-- A policy allowing only namespaces literally equal to `allowed-only`
(under `rmatchEq`). -/
def cfgDeny : ControllerCfg := { allowedNamespaces := "allowed-only", ignoredNamespaces := "" }

/-- A selector spec with every field empty. -/
def emptySel : SelectorSpec :=
  { pods := [], labelSelectors := [], fieldSelectors := [], nodes := [], nodeSelectors := [],
    namespaces := [], annotationSelectors := [], podPhaseSelectors := [] }

/-- A pod `ns2/b` with no labels or annotations. -/
def podNs2b : Pod :=
  { ns := "ns2", name := "b", labels := [], annotations := [], phase := "Running", nodeName := "" }

/-- A pod `ns1/b` with no labels or annotations. -/
def podNs1b : Pod :=
  { ns := "ns1", name := "b", labels := [], annotations := [], phase := "Running", nodeName := "" }

/-- A spec whose explicit `Pods` map lists exactly `ns1 -> [a]`. -/
def selPodsNs1a : SelectorSpec :=
  { pods := [("ns1", ["a"])], labelSelectors := [], fieldSelectors := [], nodes := [],
    nodeSelectors := [], namespaces := [], annotationSelectors := [], podPhaseSelectors := [] }

/-- Pod `ns1/a` carrying label `app=x` (fails `selExplicitW`'s own label
constraint `app=y`). -/
def podW : Pod :=
  { ns := "ns1", name := "a", labels := [("app", "x")], annotations := [],
    phase := "Pending", nodeName := "other-node" }

/-- A spec with a non-empty explicit `Pods` map and, simultaneously, label,
node, namespace, annotation and phase constraints that `podW` all fails. -/
def selExplicitW : SelectorSpec :=
  { pods := [("ns1", ["a"])], labelSelectors := [("app", "y")], fieldSelectors := [],
    nodes := ["node-1"], nodeSelectors := [], namespaces := ["!ns1"],
    annotationSelectors := [("must", "have")], podPhaseSelectors := ["Running"] }

/-- A pod assigned to node `n1`. -/
def podOnN1 : Pod :=
  { ns := "d", name := "p", labels := [], annotations := [], phase := "Running",
    nodeName := "n1" }

/-- The node `n1`. -/
def nodeN1 : Node := { name := "n1", labels := [] }

/-- A value-equality requirement `k = v` (unsupported by the existence-only
namespace/phase matchers). -/
def reqEqKV : Requirement := { key := "k", op := .equals, values := ["v"] }

/-- A pod annotated `k=v`. -/
def podAnnotKV : Pod :=
  { ns := "d", name := "av", labels := [], annotations := [("k", "v")],
    phase := "Running", nodeName := "" }

/-- A pod annotated `k=w`. -/
def podAnnotKW : Pod :=
  { ns := "d", name := "aw", labels := [], annotations := [("k", "w")],
    phase := "Running", nodeName := "" }

/-- The requirement expression `default,!kube-system`. -/
def reqsW6 : Selector :=
  [{ key := "default", op := .exists_, values := [] },
   { key := "kube-system", op := .doesNotExist, values := [] }]

/-- A pod in namespace `default`. -/
def podDefault : Pod :=
  { ns := "default", name := "pd", labels := [], annotations := [], phase := "Running",
    nodeName := "" }

/-- A pod in namespace `kube-system`. -/
def podKube : Pod :=
  { ns := "kube-system", name := "pk", labels := [], annotations := [], phase := "Running",
    nodeName := "" }

/-- A pool of seven pods. -/
def pods7 : List Pod := List.replicate 7 dummyPod

/-- A pod and a spec (with empty `Pods` map and no node/field constraints)
that agree on every constraint of the spec. -/
def podDW : Pod :=
  { ns := "default", name := "web", labels := [("app", "x")], annotations := [("k", "v")],
    phase := "Running", nodeName := "n1" }

/-- The matching spec for `podDW`: label `app=x`, namespace `default`,
annotation key `k`, phase `Running`. -/
def selDW : SelectorSpec :=
  { pods := [], labelSelectors := [("app", "x")], fieldSelectors := [], nodes := [],
    nodeSelectors := [], namespaces := ["default"], annotationSelectors := [("k", "v")],
    podPhaseSelectors := ["Running"] }

/-- A select-and-sample spec over the all-empty selector. -/
def sdsEmpty : SelectSpecData := { selector := emptySel, mode := "one", value := "" }

/-! ## Lemmas about the fixed-index sampler -/

/-- Invariant of the rejection loop: any successful run produces exactly
`count` pairwise-distinct indices inside `[start, start + range)`. -/
theorem rfiLoop_spec (stream : Nat → Nat) (start range count : Nat) :
    ∀ (fuel pos : Nat) (acc l : List Nat),
      acc.length ≤ count → count ≤ range → acc.Nodup →
      (∀ x ∈ acc, start ≤ x ∧ x < start + range) →
      rfiLoop stream start range count fuel pos acc = some l →
      l.length = count ∧ l.Nodup ∧ ∀ x ∈ l, start ≤ x ∧ x < start + range := by
  intro fuel
  induction fuel with
  | zero =>
    intro pos acc l hlen hcr hnd hmem h
    simp only [rfiLoop] at h
    by_cases hge : acc.length ≥ count
    · rw [if_pos hge] at h
      cases h
      refine ⟨by simp only [List.length_reverse]; exact Nat.le_antisymm hlen hge,
        List.nodup_reverse.mpr hnd, ?_⟩
      intro x hx
      exact hmem x (List.mem_reverse.mp hx)
    · rw [if_neg hge] at h
      exact absurd h (by simp)
  | succ fuel ih =>
    intro pos acc l hlen hcr hnd hmem h
    simp only [rfiLoop] at h
    by_cases hge : acc.length ≥ count
    · rw [if_pos hge] at h
      cases h
      refine ⟨by simp only [List.length_reverse]; exact Nat.le_antisymm hlen hge,
        List.nodup_reverse.mpr hnd, ?_⟩
      intro x hx
      exact hmem x (List.mem_reverse.mp hx)
    · rw [if_neg hge] at h
      have hlt : acc.length < count := Nat.lt_of_not_le hge
      have hrange : 0 < range :=
        Nat.lt_of_lt_of_le (Nat.lt_of_le_of_lt (Nat.zero_le _) hlt) hcr
      have hidx1 : start ≤ stream pos % range + start := Nat.le_add_left _ _
      have hidx2 : stream pos % range + start < start + range := by
        have := Nat.mod_lt (stream pos) hrange
        omega
      by_cases hc : acc.contains (stream pos % range + start) = true
      · rw [if_pos hc] at h
        exact ih (pos + 1) acc l hlen hcr hnd hmem h
      · rw [if_neg hc] at h
        refine ih (pos + 1) ((stream pos % range + start) :: acc) l
          (Nat.succ_le_of_lt hlt) hcr
          (List.nodup_cons.mpr ⟨by simpa using hc, hnd⟩) ?_ h
        intro x hx
        rcases List.mem_cons.mp hx with hx | hx
        · subst hx; exact ⟨hidx1, hidx2⟩
        · exact hmem x hx

/-- Any successful `RandomFixedIndexes(0, N, K)` run with `K ≤ N` produces
exactly `K` distinct indices below `N`. -/
theorem rfi_spec (stream : Nat → Nat) (fuel N K : Nat) (l : List Nat)
    (hK : K ≤ N) (h : RandomFixedIndexes stream fuel 0 N K = some l) :
    l.length = K ∧ l.Nodup ∧ ∀ x ∈ l, x < N := by
  rw [RandomFixedIndexes] at h
  simp only [Nat.not_lt_zero, if_false, Nat.sub_zero] at h
  have hgt : ¬ K > N := by omega
  rw [if_neg hgt] at h
  have := rfiLoop_spec stream 0 N K fuel 0 [] l (by simp) hK
    (by simp) (by simp) h
  exact ⟨this.1, this.2.1, fun x hx => by simpa using (this.2.2 x hx).2⟩

/-- `RandomFixedIndexes` with count zero: immediately the empty list
(the loop's collection test succeeds before any draw). -/
theorem rfi_zero (stream : Nat → Nat) (fuel N : Nat) :
    RandomFixedIndexes stream fuel 0 N 0 = some [] := by
  rw [RandomFixedIndexes]
  cases fuel <;> simp [rfiLoop]


/-! ## Claim C5: sample size, distinctness, range, inverted range -/

/-- C5: for `K ≤ N`, every terminating run of `RandomFixedIndexes(0, N, K)`
returns exactly `K` pairwise-distinct indices, each in `[0, N)`; and for an
inverted range (`end < start`, e.g. `(5, 2, K)`) the result is empty for any
count, stream and fuel. -/
theorem C5_sample_count (stream : Nat → Nat) (fuel N K : Nat) (l : List Nat)
    (hK : K ≤ N) (h : RandomFixedIndexes stream fuel 0 N K = some l) :
    (l.length = K ∧ l.Nodup ∧ ∀ x ∈ l, x < N) ∧
    (∀ (stream2 : Nat → Nat) (fuel2 K2 : Nat),
      RandomFixedIndexes stream2 fuel2 5 2 K2 = some []) := by
  refine ⟨rfi_spec stream fuel N K l hK h, ?_⟩
  intro stream2 fuel2 K2
  rw [RandomFixedIndexes]
  norm_num

/-- Witness for C5 at `N = 3`, `K = 2`, the identity stream and fuel 10:
the run terminates with `[0, 1]`, and the theorem yields its length,
distinctness and the inverted-range result. -/
theorem C5_sample_count_witness :
    (2 ≤ 3 ∧ RandomFixedIndexes id 10 0 3 2 = some [0, 1]) ∧
    ([0, 1] : List Nat).length = 2 ∧ ([0, 1] : List Nat).Nodup ∧
    RandomFixedIndexes id 10 5 2 7 = some [] := by
  have h := C5_sample_count id 10 3 2 [0, 1] (by decide) rfl
  exact ⟨⟨by decide, rfl⟩, h.1.1, h.1.2.1, h.2 id 10 7⟩

/-! ## Claim C4: the ascending fallback is strict, not `≥` -/

/-- C4 counterexample: at `start = 0`, `end = 2`, `count = 2` (so
`count = end - start`, which the claim includes), the randomized branch runs:
with the draw sequence `1, 0` the result is `[1, 0]`, not the ascending
`[0, 1] = List.range' 0 2` the claim requires, and it depends on the stream,
so it is not deterministic either. -/
theorem C4_counterexample :
    RandomFixedIndexes (fun i => 1 - i) 4 0 2 2 = some [1, 0] ∧
    some [1, 0] ≠ some (List.range' 0 2) := by
  exact ⟨rfl, by decide⟩

/-- C4 amended: only for `count` strictly greater than `end - start` does
`RandomFixedIndexes` return every index of `[start, end)` in ascending order,
independently of the random stream and fuel; at `count = end - start` the
randomized rejection branch runs instead (it still returns all indices of the
range, but in draw order). -/
theorem C4_amended (stream : Nat → Nat) (fuel start end_ count : Nat)
    (h1 : start ≤ end_) (h2 : end_ - start < count) :
    RandomFixedIndexes stream fuel start end_ count = some (List.range' start (end_ - start)) ∧
    (∀ x, x ∈ List.range' start (end_ - start) ↔ start ≤ x ∧ x < end_) ∧
    List.Pairwise (· < ·) (List.range' start (end_ - start)) := by
  refine ⟨?_, ?_, List.pairwise_lt_range' start (end_ - start)⟩
  · rw [RandomFixedIndexes]
    rw [if_neg (by omega), if_pos (by omega)]
  · intro x
    rw [List.mem_range'_1]
    omega

/-- Witness for C4 amended at `start = 0`, `end = 2`, `count = 3`. -/
theorem C4_amended_witness :
    (0 ≤ 2 ∧ 2 - 0 < 3) ∧
    RandomFixedIndexes id 7 0 2 3 = some (List.range' 0 2) ∧
    List.range' 0 2 = [0, 1] := by
  have h := C4_amended id 7 0 2 3 (by decide) (by decide)
  exact ⟨⟨by decide, by decide⟩, h.1, by decide⟩

/-! ## Claim C10: the node filter can duplicate pods -/

/-- The inner loop of `filterPodByNode` emits one copy of the pod per
matching node. -/
theorem nodeMatches_eq (pod : Pod) (nodes : List Node) :
    nodeMatches pod nodes =
      List.replicate (nodes.countP (fun node => pod.nodeName == node.name)) pod := by
  induction nodes with
  | nil => simp [nodeMatches]
  | cons node rest ih =>
    simp only [nodeMatches, List.countP_cons]
    by_cases h : (pod.nodeName == node.name) = true
    · simp [h, ih, List.replicate_succ]
    · simp [h, ih]

/-- C10: `filterPodByNode` emits each pod once per node entry whose name
equals the pod's node name, so a node resolved twice (e.g. both by explicit
name and by label query) duplicates its pods and the output is not a
subsequence of the input; concretely, one pod against `[n1, n1]` comes out
twice. -/
theorem C10_node_filter_duplicates (pods : List Pod) (nodes : List Node) :
    filterPodByNode pods nodes =
      pods.flatMap (fun pod =>
        List.replicate (nodes.countP (fun node => pod.nodeName == node.name)) pod) ∧
    filterPodByNode [podOnN1] [nodeN1, nodeN1] = [podOnN1, podOnN1] := by
  constructor
  · rw [filterPodByNode]
    by_cases h : nodes.length == 0
    · have hn : nodes = [] := by
        simpa [List.length_eq_zero] using h
      subst hn
      rw [if_pos (by decide)]
      symm
      induction pods with
      | nil => rfl
      | cons p rest ih => simp [ih]
    · rw [if_neg (by simpa using h)]
      induction pods with
      | nil => simp [filterPodByNodeAux]
      | cons p rest ih =>
        simp [filterPodByNodeAux, ih, nodeMatches_eq]
  · rfl



/-! ## Claim C1: a non-empty explicit Pods map bypasses every filter -/

/-- C1: when the explicit `Pods` map is non-empty, `SelectPods` is exactly the
resolution of that map (so no bulk query, node filter, policy filter or
namespace/annotation/phase requirement filter runs), and the result does not
depend on the policy configuration or on any other field of the spec. -/
theorem C1_explicit_pods_bypass (rmatch : String → String → Except String Bool)
    (cfg : ControllerCfg) (c : Client) (sel : SelectorSpec) (h : sel.pods ≠ []) :
    SelectPods rmatch cfg c sel = resolveExplicitPods c sel.pods ∧
    (∀ (rmatch2 : String → String → Except String Bool) (cfg2 : ControllerCfg)
      (sel2 : SelectorSpec), sel2.pods = sel.pods →
      SelectPods rmatch2 cfg2 c sel2 = SelectPods rmatch cfg c sel) := by
  have hlen : sel.pods.length > 0 := List.length_pos.mpr h
  constructor
  · rw [SelectPods, if_pos hlen]
  · intro rmatch2 cfg2 sel2 he
    rw [SelectPods, if_pos (by rw [he]; exact hlen), he, SelectPods, if_pos hlen]

/-- Witness for C1: `podW` fails every label/namespace/annotation/phase
constraint of `selExplicitW`, yet it is returned because it is explicitly
listed. -/
theorem C1_explicit_pods_bypass_witness :
    selExplicitW.pods ≠ [] ∧
    SelectPods rmatchTrue cfg0 (storeClient [podW] []) selExplicitW =
      resolveExplicitPods (storeClient [podW] []) selExplicitW.pods ∧
    resolveExplicitPods (storeClient [podW] []) selExplicitW.pods = .ok [podW] := by
  refine ⟨by decide, ?_, rfl⟩
  exact (C1_explicit_pods_bypass rmatchTrue cfg0 (storeClient [podW] []) selExplicitW
    (by decide)).1

/-! ## Claim C3: the explicit-pods stage of the membership tester -/

/-- The explicit-pods scan returns `false` whenever some entry's namespace
matches the pod but no matching entry lists the pod's name. -/
theorem podsMapLoop_false (pod : Pod) :
    ∀ entries : List (String × List String),
      (∃ e ∈ entries, e.1 = pod.ns) →
      (∀ e ∈ entries, e.1 = pod.ns → pod.name ∉ e.2) →
      podsMapLoop pod false entries = false := by
  intro entries
  induction entries with
  | nil => intro hex _; simp at hex
  | cons e rest ih =>
    intro hex hall
    obtain ⟨ns, names⟩ := e
    by_cases hn : (pod.ns == ns) = true
    · have hns : ns = pod.ns := (beq_iff_eq.mp hn).symm
      have hnot : pod.name ∉ names := hall (ns, names) (List.mem_cons_self _ _) hns
      have hany : names.any (fun name => pod.name == name) = false := by
        rw [Bool.eq_false_iff]
        intro hc
        obtain ⟨x, hx, hbx⟩ := List.any_eq_true.mp hc
        exact hnot (beq_iff_eq.mp hbx ▸ hx)
      simp [podsMapLoop, hn, hany]
    · have hex2 : ∃ e ∈ rest, e.1 = pod.ns := by
        rcases hex with ⟨e2, he2, hns2⟩
        rcases List.mem_cons.mp he2 with he2 | he2
        · exfalso
          apply hn
          rw [show e2.1 = ns from by rw [he2]] at hns2
          simp [hns2]
        · exact ⟨e2, he2, hns2⟩
      have hall2 : ∀ e ∈ rest, e.1 = pod.ns → pod.name ∉ e.2 :=
        fun e2 he2 => hall e2 (List.mem_cons_of_mem _ he2)
      simp [podsMapLoop, hn, ih hex2 hall2]

/-- C3 counterexample: `podNs2b` lives in namespace `ns2`, which appears
nowhere in the explicit map `{ns1: [a]}` of `selPodsNs1a`, yet the membership
tester answers `true` (the scan falls through instead of rejecting), refuting
"returns true only if the pod's namespace is one of the listed namespaces". -/
theorem C3_counterexample :
    CheckPodMeetSelector podNs2b selPodsNs1a = .ok true ∧
    selPodsNs1a.pods = [("ns1", ["a"])] ∧ podNs2b.ns = "ns2" := by
  exact ⟨rfl, rfl, rfl⟩

/-- C3 amended: when `spec.Pods` is non-empty, the pod-map stage rejects only
on a namespace hit without a name hit: if some listed entry's namespace equals
the pod's namespace and no such entry lists the pod's name, the tester returns
`false`; a pod whose namespace matches a listed entry is accepted by this
stage only when its name is listed there, while a pod whose namespace matches
no entry merely falls through to the later stages. -/
theorem C3_amended (pod : Pod) (sel : SelectorSpec)
    (h1 : ∃ e ∈ sel.pods, e.1 = pod.ns)
    (h2 : ∀ e ∈ sel.pods, e.1 = pod.ns → pod.name ∉ e.2) :
    CheckPodMeetSelector pod sel = .ok false := by
  have hne : sel.pods ≠ [] := by
    rcases h1 with ⟨e, he, -⟩
    exact List.ne_nil_of_mem he
  have hlen : sel.pods.length > 0 := List.length_pos.mpr hne
  have hloop := podsMapLoop_false pod sel.pods h1 h2
  rw [CheckPodMeetSelector, if_pos (by simp [hlen, hloop])]

/-- Witness for C3 amended: `ns1/b` hits the listed namespace `ns1` but not
the listed name `a`, so the tester returns `false`. -/
theorem C3_amended_witness :
    CheckPodMeetSelector podNs1b selPodsNs1a = .ok false := by
  exact C3_amended podNs1b selPodsNs1a (by decide) (by decide)

/-! ## Claims C6/C7: the include/exclude requirement evaluation -/

/-- `splitRequirements` aborts with the unsupported-operator error as soon as
the expression contains a requirement outside `{Exists, DoesNotExist}`. -/
theorem splitRequirements_err (reqs : Selector) (r : Requirement)
    (hr : r ∈ reqs) (h1 : r.op ≠ .exists_) (h2 : r.op ≠ .doesNotExist) :
    ∃ o, splitRequirements reqs = .error (.unsupportedOperator o) := by
  induction reqs with
  | nil => simp at hr
  | cons q rest ih =>
    simp only [splitRequirements]
    rcases List.mem_cons.mp hr with he | ht
    · subst he
      cases hop : r.op
      case exists_ => exact absurd hop h1
      case doesNotExist => exact absurd hop h2
      all_goals exact ⟨_, rfl⟩
    · cases hop : q.op
      case exists_ =>
        obtain ⟨o, ho⟩ := ih ht
        exact ⟨o, by simp [ho]⟩
      case doesNotExist =>
        obtain ⟨o, ho⟩ := ih ht
        exact ⟨o, by simp [ho]⟩
      all_goals exact ⟨_, rfl⟩

/-- `splitRequirements` on a supported expression partitions it into the
`Exists` and `DoesNotExist` requirements, in order. -/
theorem splitRequirements_ok (reqs : Selector)
    (h : ∀ r ∈ reqs, r.op = .exists_ ∨ r.op = .doesNotExist) :
    splitRequirements reqs =
      .ok (reqs.filter (fun r => decide (r.op = .exists_)),
        reqs.filter (fun r => decide (r.op = .doesNotExist))) := by
  induction reqs with
  | nil => rfl
  | cons q rest ih =>
    have ht : ∀ r ∈ rest, r.op = .exists_ ∨ r.op = .doesNotExist :=
      fun r hrr => h r (List.mem_cons_of_mem q hrr)
    rcases h q (List.mem_cons_self q rest) with hq | hq
    · simp [splitRequirements, hq, ih ht, List.filter_cons]
    · simp [splitRequirements, hq, ih ht, List.filter_cons]

/-- The emptiness of the including group, phrased over the whole expression. -/
theorem filterExists_isEmpty (reqs : Selector) :
    (reqs.filter (fun r => decide (r.op = .exists_))).isEmpty =
      reqs.all (fun r => decide (r.op ≠ .exists_)) := by
  induction reqs with
  | nil => rfl
  | cons q rest ih =>
    by_cases hq : q.op = .exists_
    · simp [List.filter_cons, hq]
    · simp [List.filter_cons, hq, ih]

/-- An `Exists` requirement matches a set iff its key is present. -/
theorem reqMatches_of_exists (q : Requirement) (s : KVSet) (hq : q.op = .exists_) :
    reqMatches q s = hasKey s q.key := by
  simp [reqMatches, hq]

/-- A `DoesNotExist` requirement matches a set iff its key is absent. -/
theorem reqMatches_of_dne (q : Requirement) (s : KVSet) (hq : q.op = .doesNotExist) :
    reqMatches q s = !hasKey s q.key := by
  simp [reqMatches, hq]

/-- The first-match scan of the including group, phrased over the whole
expression. -/
theorem filterExists_any (reqs : Selector) (s : KVSet) :
    (reqs.filter (fun r => decide (r.op = .exists_))).any (fun r => reqMatches r s) =
      reqs.any (fun r => decide (r.op = .exists_) && hasKey s r.key) := by
  induction reqs with
  | nil => rfl
  | cons q rest ih =>
    by_cases hq : q.op = .exists_
    · simp [List.filter_cons, hq, ih, reqMatches_of_exists q s hq]
    · simp [List.filter_cons, hq, ih]

/-- The first-failure scan of the excluding group, phrased over the whole
expression. -/
theorem filterDNE_all (reqs : Selector) (s : KVSet) :
    (reqs.filter (fun r => decide (r.op = .doesNotExist))).all (fun r => reqMatches r s) =
      !(reqs.any (fun r => decide (r.op = .doesNotExist) && hasKey s r.key)) := by
  induction reqs with
  | nil => rfl
  | cons q rest ih =>
    by_cases hq : q.op = .doesNotExist
    · simp [List.filter_cons, hq, ih, reqMatches_of_dne q s hq]
    · simp [List.filter_cons, hq, ih]

/-- The keep condition computed by the filters equals the spec's wording of
it. -/
theorem selKeep_eq_specKeep (reqs : Selector) (s : KVSet) :
    selKeep reqs s = specKeep reqs s := by
  rw [selKeep, reqKeep, specKeep, filterExists_isEmpty, filterExists_any, filterDNE_all]

/-- Filtering by the empty expression's keep condition keeps everything. -/
theorem filter_selKeep_nil (f : Pod → KVSet) (pods : List Pod) :
    pods.filter (fun pod => selKeep [] (f pod)) = pods := by
  induction pods with
  | nil => rfl
  | cons p rest ih =>
    rw [List.filter_cons, if_pos (by rfl), ih]

/-- `filterByNamespaceSelector` on a supported expression is a pointwise
filter with the `selKeep` condition over `{pod.Namespace: ""}`. -/
theorem filterByNamespaceSelector_eq (pods : List Pod) (reqs : Selector)
    (h : ∀ r ∈ reqs, r.op = .exists_ ∨ r.op = .doesNotExist) :
    filterByNamespaceSelector pods reqs =
      .ok (pods.filter (fun pod => selKeep reqs [(pod.ns, "")])) := by
  by_cases he : reqs.isEmpty = true
  · have hnil : reqs = [] := by simpa [List.isEmpty_iff] using he
    subst hnil
    rw [show filterByNamespaceSelector pods ([] : Selector) = .ok pods from rfl,
      filter_selKeep_nil (fun pod => [(pod.ns, "")])]
  · rw [filterByNamespaceSelector, if_neg he, splitRequirements_ok reqs h]
    rfl

/-- `filterByPhaseSelector` on a supported expression is a pointwise filter
with the `selKeep` condition over `{pod.Status.Phase: ""}`. -/
theorem filterByPhaseSelector_eq (pods : List Pod) (reqs : Selector)
    (h : ∀ r ∈ reqs, r.op = .exists_ ∨ r.op = .doesNotExist) :
    filterByPhaseSelector pods reqs =
      .ok (pods.filter (fun pod => selKeep reqs [(pod.phase, "")])) := by
  by_cases he : reqs.isEmpty = true
  · have hnil : reqs = [] := by simpa [List.isEmpty_iff] using he
    subst hnil
    rw [show filterByPhaseSelector pods ([] : Selector) = .ok pods from rfl,
      filter_selKeep_nil (fun pod => [(pod.phase, "")])]
  · rw [filterByPhaseSelector, if_neg he, splitRequirements_ok reqs h]
    rfl

/-- C6: on a supported expression, the namespace and phase filters keep a pod
iff (the expression has no `Exists` requirement, or some `Exists`
requirement's key is present in the pod's synthetic single-key set) and no
`DoesNotExist` requirement's key is present in that set; the empty expression
keeps every pod. -/
theorem C6_requirement_filters (pods : List Pod) (reqs : Selector)
    (h : ∀ r ∈ reqs, r.op = .exists_ ∨ r.op = .doesNotExist) :
    filterByNamespaceSelector pods reqs =
      .ok (pods.filter (fun pod => specKeep reqs [(pod.ns, "")])) ∧
    filterByPhaseSelector pods reqs =
      .ok (pods.filter (fun pod => specKeep reqs [(pod.phase, "")])) ∧
    filterByNamespaceSelector pods [] = .ok pods ∧
    filterByPhaseSelector pods [] = .ok pods := by
  refine ⟨?_, ?_, rfl, rfl⟩
  · rw [filterByNamespaceSelector_eq pods reqs h,
      List.filter_congr (fun pod _ => selKeep_eq_specKeep reqs [(pod.ns, "")])]
  · rw [filterByPhaseSelector_eq pods reqs h,
      List.filter_congr (fun pod _ => selKeep_eq_specKeep reqs [(pod.phase, "")])]

/-- Witness for C6 on the expression `default,!kube-system` over the pods in
namespaces `default` and `kube-system`: only the `default` pod survives. -/
theorem C6_requirement_filters_witness :
    (∀ r ∈ reqsW6, r.op = .exists_ ∨ r.op = .doesNotExist) ∧
    filterByNamespaceSelector [podDefault, podKube] reqsW6 =
      .ok ([podDefault, podKube].filter (fun pod => specKeep reqsW6 [(pod.ns, "")])) ∧
    [podDefault, podKube].filter (fun pod => specKeep reqsW6 [(pod.ns, "")]) =
      [podDefault] := by
  refine ⟨by decide, ?_, rfl⟩
  exact (C6_requirement_filters [podDefault, podKube] reqsW6 (by decide)).1

/-- C7 counterexample: the annotation filter stage does not reject a
value-equality requirement with an unsupported-operator error; it evaluates
it (its Go signature cannot even return an error): `k = v` keeps the pod
annotated `k=v` and drops the pod annotated `k=w`. -/
theorem C7_counterexample :
    filterByAnnotations [podAnnotKV] [reqEqKV] = [podAnnotKV] ∧
    filterByAnnotations [podAnnotKW] [reqEqKV] = [] := by
  exact ⟨rfl, rfl⟩

/-- C7 amended: for the namespace and phase filter stages (but not the
annotation stage), any requirement whose operator is outside
`{Exists, DoesNotExist}` makes the call fail with the unsupported-operator
error. -/
theorem C7_amended (pods : List Pod) (reqs : Selector) (r : Requirement)
    (hr : r ∈ reqs) (h1 : r.op ≠ .exists_) (h2 : r.op ≠ .doesNotExist) :
    isUnsupportedOpError (filterByNamespaceSelector pods reqs) = true ∧
    isUnsupportedOpError (filterByPhaseSelector pods reqs) = true := by
  obtain ⟨o, ho⟩ := splitRequirements_err reqs r hr h1 h2
  have hne : ¬reqs.isEmpty = true := by
    cases reqs with
    | nil => simp at hr
    | cons q t => simp
  constructor
  · rw [filterByNamespaceSelector, if_neg hne, ho]
    rfl
  · rw [filterByPhaseSelector, if_neg hne, ho]
    rfl

/-- Witness for C7 amended at the equality requirement `k = v`. -/
theorem C7_amended_witness :
    (reqEqKV ∈ [reqEqKV] ∧ reqEqKV.op ≠ .exists_ ∧ reqEqKV.op ≠ .doesNotExist) ∧
    isUnsupportedOpError (filterByNamespaceSelector [podNs2b] [reqEqKV]) = true ∧
    isUnsupportedOpError (filterByPhaseSelector [podNs2b] [reqEqKV]) = true := by
  have h := C7_amended [podNs2b] [reqEqKV] reqEqKV (by decide) (by decide) (by decide)
  exact ⟨⟨by decide, by decide, by decide⟩, h.1, h.2⟩



/-! ## Claim C8: FixedPercent sampling -/

/-- Length of a successful fixed-sublist sample. -/
theorem getFixedSubList_length (stream : Nat → Nat) (fuel : Nat) (pods : List Pod)
    (num : Nat) (l : List Pod) (hnum : num ≤ pods.length)
    (h : getFixedSubListFromPodList stream fuel pods num = some l) :
    l.length = num := by
  rw [getFixedSubListFromPodList] at h
  cases hr : RandomFixedIndexes stream fuel 0 pods.length num with
  | none => rw [hr] at h; exact absurd h (by simp)
  | some indexes =>
    rw [hr] at h
    cases h
    simp [(rfi_spec stream fuel pods.length num indexes hnum hr).1]

/-- A fixed-sublist sample of zero elements is the empty list, for any fuel. -/
theorem getFixedSubList_zero (stream : Nat → Nat) (fuel : Nat) (pods : List Pod) :
    getFixedSubListFromPodList stream fuel pods 0 = some [] := by
  rw [getFixedSubListFromPodList, rfi_zero]
  rfl

/-- Reduction of `filterPodsByMode` to the FixedPercent branch on a non-empty
pool. -/
theorem filterPodsByMode_fixedPercent (stream : Nat → Nat) (fuel : Nat)
    (pods : List Pod) (value : String) (hne : ¬((pods.length == 0) = true)) :
    filterPodsByMode stream fuel pods FixedPercentPodMode value =
      (match goAtoi value with
      | .error msg => some (.error (.atoiError msg))
      | .ok percentage =>
        if percentage == 0 then some (.error .valueBelowOrEqualZero)
        else if percentage < 0 || percentage > 100 then
          some (.error (.invalidPercentage percentage))
        else
          match getFixedSubListFromPodList stream fuel pods
              (pods.length * percentage.toNat / 100) with
          | none => none
          | some l => some (.ok l)) := by
  rw [filterPodsByMode, if_neg hne, if_neg (by decide), if_neg (by decide),
    if_neg (by decide), if_pos (by decide)]

/-- C8: in FixedPercent mode on a non-empty pool, the call errors exactly when
the value is not an integer, is zero, or lies outside (0,100]; for a valid
percentage `p` every produced result is a success of exactly
`len * p / 100` pods (and a computed count of zero yields the empty list
without error, for any fuel). -/
theorem C8_fixed_percent (stream : Nat → Nat) (fuel : Nat) (pods : List Pod)
    (value : String) (hne : pods ≠ []) :
    (∀ msg, goAtoi value = .error msg →
      filterPodsByMode stream fuel pods FixedPercentPodMode value =
        some (.error (.atoiError msg))) ∧
    (∀ p : Int, goAtoi value = .ok p → p ≤ 0 ∨ 100 < p →
      ∃ er, filterPodsByMode stream fuel pods FixedPercentPodMode value =
        some (.error er)) ∧
    (∀ p : Int, goAtoi value = .ok p → 0 < p → p ≤ 100 →
      (∀ r, filterPodsByMode stream fuel pods FixedPercentPodMode value = some r →
        ∃ l, r = .ok l ∧ l.length = pods.length * p.toNat / 100) ∧
      (pods.length * p.toNat / 100 = 0 →
        filterPodsByMode stream fuel pods FixedPercentPodMode value =
          some (.ok []))) := by
  have hne0 : ¬((pods.length == 0) = true) := by
    simp [List.length_eq_zero, hne]
  rw [filterPodsByMode_fixedPercent stream fuel pods value hne0]
  refine ⟨?_, ?_, ?_⟩
  · intro msg hmsg
    rw [hmsg]
  · intro p hp hbad
    simp only [hp]
    by_cases hz : p = 0
    · refine ⟨.valueBelowOrEqualZero, ?_⟩
      simp [hz]
    · have hlt : p < 0 ∨ 100 < p := by omega
      refine ⟨.invalidPercentage p, ?_⟩
      have h1 : ¬((p == 0) = true) := by simp [hz]
      have h2 : (decide (p < 0) || decide (p > 100)) = true := by
        rcases hlt with h | h <;> simp [h]
      rw [if_neg h1, if_pos h2]
  · intro p hp h0 h100
    simp only [hp]
    have h1 : ¬((p == 0) = true) := by simp; omega
    have h2 : ¬((decide (p < 0) || decide (p > 100)) = true) := by
      simp
      omega
    rw [if_neg h1, if_neg h2]
    have hnum : pods.length * p.toNat / 100 ≤ pods.length := by
      have hmul : pods.length * p.toNat ≤ pods.length * 100 :=
        Nat.mul_le_mul_left _ (by omega)
      calc pods.length * p.toNat / 100 ≤ pods.length * 100 / 100 :=
            Nat.div_le_div_right hmul
        _ = pods.length := by omega
    constructor
    · intro r hr
      cases hsub : getFixedSubListFromPodList stream fuel pods
          (pods.length * p.toNat / 100) with
      | none => rw [hsub] at hr; exact absurd hr (by simp)
      | some l =>
        rw [hsub] at hr
        cases hr
        exact ⟨l, rfl, getFixedSubList_length stream fuel pods _ l hnum hsub⟩
    · intro hz0
      rw [hz0, getFixedSubList_zero]

/-- Witness for C8: a pool of 7 with value `"50"` yields exactly
`7 * 50 / 100 = 3` pods (and, via the theorem, any produced result has that
size). -/
theorem C8_fixed_percent_witness :
    pods7 ≠ [] ∧ goAtoi "50" = .ok 50 ∧
    filterPodsByMode id 100 pods7 FixedPercentPodMode "50" =
      some (.ok [dummyPod, dummyPod, dummyPod]) ∧
    ([dummyPod, dummyPod, dummyPod] : List Pod).length =
      pods7.length * (50 : Int).toNat / 100 := by
  have hrun : filterPodsByMode id 100 pods7 FixedPercentPodMode "50" =
      some (.ok [dummyPod, dummyPod, dummyPod]) := by rfl
  have h := ((C8_fixed_percent id 100 pods7 "50" (by decide)).2.2 50 rfl
    (by norm_num) (by norm_num)).1 (.ok [dummyPod, dummyPod, dummyPod]) hrun
  obtain ⟨l, hl, hlen⟩ := h
  refine ⟨by decide, rfl, hrun, ?_⟩
  cases hl
  exact hlen

/-! ## Claim C9: empty-pool errors -/

/-- Requirements produced by the spec-modelled parser are existence-only. -/
theorem parseTokens_ops (str : String) :
    ∀ r ∈ parseTokens str, r.op = .exists_ ∨ r.op = .doesNotExist := by
  intro r hr
  rw [parseTokens] at hr
  by_cases he : (str == "") = true
  · rw [if_pos he] at hr
    simp at hr
  · rw [if_neg he] at hr
    rcases List.mem_map.mp hr with ⟨cs, -, hcs⟩
    rw [← hcs, tokenToRequirement]
    by_cases hb : (cs.headD ' ' == '!') = true
    · rw [if_pos hb]
      right
      rfl
    · rw [if_neg hb]
      left
      rfl

/-- Errors escaping `resolveNames` are client errors. -/
theorem resolveNames_err (c : Client) (ns : String) :
    ∀ (names : List String) (e : SelErr), resolveNames c ns names = .error e →
      ∃ msg, e = .clientError msg := by
  intro names
  induction names with
  | nil =>
    intro e h
    exact absurd h (by simp [resolveNames])
  | cons n rest ih =>
    intro e h
    simp only [resolveNames] at h
    cases hg : c.getPod ns n with
    | found pod =>
      rw [hg] at h
      cases hr : resolveNames c ns rest with
      | error er =>
        rw [hr] at h
        cases h
        exact ih _ hr
      | ok ps =>
        rw [hr] at h
        exact absurd h (by simp)
    | notFound =>
      rw [hg] at h
      exact ih e h
    | err msg =>
      rw [hg] at h
      cases h
      exact ⟨msg, rfl⟩

/-- Errors escaping `resolveExplicitPods` are client errors. -/
theorem resolveExplicitPods_err (c : Client) :
    ∀ (entries : List (String × List String)) (e : SelErr),
      resolveExplicitPods c entries = .error e → ∃ msg, e = .clientError msg := by
  intro entries
  induction entries with
  | nil =>
    intro e h
    exact absurd h (by simp [resolveExplicitPods])
  | cons entry rest ih =>
    intro e h
    obtain ⟨ns, names⟩ := entry
    simp only [resolveExplicitPods] at h
    cases hn : resolveNames c ns names with
    | error er =>
      rw [hn] at h
      cases h
      exact resolveNames_err c ns names _ hn
    | ok ps =>
      rw [hn] at h
      cases hr : resolveExplicitPods c rest with
      | error er2 =>
        rw [hr] at h
        cases h
        exact ih _ hr
      | ok r2 =>
        rw [hr] at h
        exact absurd h (by simp)

/-- The namespace/annotation/phase filter chain of `SelectPods` (whose parsed
expressions come from the token grammar) never errors. -/
theorem selectStages_err (rmatch : String → String → Except String Bool)
    (cfg : ControllerCfg) (sel : SelectorSpec) (pods1 : List Pod) (e : SelErr) :
    ((match parseSelector (joinComma sel.namespaces) with
     | .error er => .error er
     | .ok namespaceSelector =>
       match filterByNamespaceSelector (filterByNamespaces rmatch cfg pods1)
           namespaceSelector with
       | .error er => .error er
       | .ok pods3 =>
         match parseSelector (labelString sel.annotationSelectors) with
         | .error er => .error er
         | .ok annotationsSelector =>
           match parseSelector (joinComma sel.podPhaseSelectors) with
           | .error er => .error er
           | .ok phaseSelector =>
             match filterByPhaseSelector (filterByAnnotations pods3 annotationsSelector)
                 phaseSelector with
             | .error er => .error er
             | .ok pods5 => .ok pods5) : Except SelErr (List Pod)) = .error e → False := by
  intro h
  simp only [parseSelector,
    filterByNamespaceSelector_eq _ _ (parseTokens_ops _),
    filterByPhaseSelector_eq _ _ (parseTokens_ops _)] at h
  exact absurd h (by simp)

/-- Every error escaping the pure pipeline `SelectPods` is a client error (in
particular, never an empty-pool error). -/
theorem SelectPods_err (rmatch : String → String → Except String Bool)
    (cfg : ControllerCfg) (c : Client) (sel : SelectorSpec) (e : SelErr)
    (h : SelectPods rmatch cfg c sel = .error e) : ∃ msg, e = .clientError msg := by
  rw [SelectPods] at h
  by_cases hp : sel.pods.length > 0
  · rw [if_pos hp] at h
    exact resolveExplicitPods_err c sel.pods e h
  · rw [if_neg hp] at h
    cases hlist : c.listPods
        { labelSelector :=
            if sel.labelSelectors.length > 0 then some sel.labelSelectors else none
          fieldSelector :=
            if sel.fieldSelectors.length > 0 then some sel.fieldSelectors else none } with
    | error msg =>
      simp only [hlist] at h
      cases h
      exact ⟨msg, rfl⟩
    | ok podItems =>
      simp only [hlist] at h
      by_cases hnode :
          (decide (sel.nodes.length > 0) || decide (sel.nodeSelectors.length > 0)) = true
      · rw [if_pos hnode] at h
        by_cases hsel : sel.nodeSelectors.length > 0
        · rw [if_pos hsel] at h
          cases hln : c.listNodes
              { labelSelector := some sel.nodeSelectors, fieldSelector := none } with
          | error msg =>
            simp only [hln] at h
            cases h
            exact ⟨msg, rfl⟩
          | ok nodesBySel =>
            simp only [hln] at h
            exact (selectStages_err rmatch cfg sel
              (filterPodByNode podItems
                ((if sel.nodes.length > 0 then resolveNodes c sel.nodes else []) ++
                  nodesBySel)) e h).elim
        · rw [if_neg hsel] at h
          exact (selectStages_err rmatch cfg sel
            (filterPodByNode podItems
              ((if sel.nodes.length > 0 then resolveNodes c sel.nodes else []) ++ [])) e
            h).elim
      · rw [if_neg hnode] at h
        exact (selectStages_err rmatch cfg sel podItems e h).elim



/-- C9: (a) the sampler fails with the empty-pool error on an empty list
before the mode is examined (any mode string, even an unsupported one);
(b) the combined entry point turns an empty selection into the
no-pod-selected error; (c) the pure pipeline can legitimately return an empty
list without error; (d) every error the pure pipeline returns is a client
error, so the empty-pool errors arise only from the combined entry point. -/
theorem C9_empty_pool :
    (∀ (stream : Nat → Nat) (fuel : Nat) (mode value : String),
      filterPodsByMode stream fuel [] mode value = some (.error .emptyPodList)) ∧
    (∀ (stream : Nat → Nat) (fuel : Nat)
      (rmatch : String → String → Except String Bool) (cfg : ControllerCfg)
      (c : Client) (sds : SelectSpecData),
      SelectPods rmatch cfg c sds.selector = .ok [] →
      SelectAndFilterPods stream fuel rmatch cfg c sds = some (.error .noPodSelected)) ∧
    SelectPods rmatchTrue cfg0 (storeClient [] []) emptySel = .ok [] ∧
    (∀ (rmatch : String → String → Except String Bool) (cfg : ControllerCfg)
      (c : Client) (sel : SelectorSpec) (e : SelErr),
      SelectPods rmatch cfg c sel = .error e → ∃ msg, e = .clientError msg) := by
  refine ⟨?_, ?_, rfl, SelectPods_err⟩
  · intro stream fuel mode value
    rfl
  · intro stream fuel rmatch cfg c sds h
    rw [SelectAndFilterPods]
    simp only [h]
    rfl

/-- Witness for C9: an empty store yields an empty selection without error,
and sampling that selection through the combined entry point fails with the
no-pod-selected error. -/
theorem C9_empty_pool_witness :
    SelectPods rmatchTrue cfg0 (storeClient [] []) emptySel = .ok [] ∧
    SelectAndFilterPods id 5 rmatchTrue cfg0 (storeClient [] []) sdsEmpty =
      some (.error .noPodSelected) := by
  exact ⟨C9_empty_pool.2.2.1,
    C9_empty_pool.2.1 id 5 rmatchTrue cfg0 (storeClient [] []) sdsEmpty
      C9_empty_pool.2.2.1⟩

/-! ## Claim C2: membership tester vs selection pipeline -/

/-- A non-empty set-based label selector never matches an empty label map. -/
theorem selMatches_fromSet_nil (ls : KVSet) (h : ls ≠ []) :
    selMatches (selectorFromSet ls) [] = false := by
  cases ls with
  | nil => exact absurd rfl h
  | cons kv rest => rfl

/-- `filterByAnnotations` as a pointwise filter (the empty selector matches
everything, so the short-circuit agrees with the filter). -/
theorem filterByAnnotations_eq (pods : List Pod) (sel : Selector) :
    filterByAnnotations pods sel =
      pods.filter (fun pod => selMatches sel pod.annotations) := by
  by_cases he : sel.isEmpty = true
  · have hnil : sel = [] := by simpa [List.isEmpty_iff] using he
    subst hnil
    have h0 : filterByAnnotations pods ([] : Selector) = pods := rfl
    rw [h0]
    symm
    induction pods with
    | nil => rfl
    | cons p rest ih => simp [List.filter_cons, selMatches, ih]
  · rw [filterByAnnotations, if_neg he]

/-- C2 counterexample, two scenarios.  First: with the explicit map
`{ns1: [a]}` and a pool holding only `ns2/b`, the tester answers `true` while
the pipeline (which resolves only the listed pod, not found) returns the
empty list.  Second: with an all-empty spec but a policy that denies `ns2`,
the tester (which never consults the policy) answers `true` while the
pipeline returns the empty list.  In both cases the pod is in the pool but
not in the pipeline output, refuting the claimed equivalence. -/
theorem C2_counterexample :
    CheckPodMeetSelector podNs2b selPodsNs1a = .ok true ∧
    SelectPods rmatchTrue cfg0 (storeClient [podNs2b] []) selPodsNs1a = .ok [] ∧
    CheckPodMeetSelector podNs2b emptySel = .ok true ∧
    SelectPods rmatchEq cfgDeny (storeClient [podNs2b] []) emptySel = .ok [] := by
  exact ⟨rfl, rfl, rfl, rfl⟩

/-- C2 amended: the agreement holds once the spec's explicit `Pods` map is
empty (in addition to the claim's "no node or field-selector constraints")
and the namespace policy admits the pod's namespace: then the pipeline
succeeds and contains the pod iff the membership tester answers `true`. -/
theorem C2_amended (rmatch : String → String → Except String Bool) (cfg : ControllerCfg)
    (store : List Pod) (nodeStore : List Node) (pod : Pod) (sel : SelectorSpec)
    (hpods : sel.pods = []) (hnodes : sel.nodes = []) (hnodesel : sel.nodeSelectors = [])
    (hfield : sel.fieldSelectors = [])
    (hallow : IsAllowedNamespaces rmatch cfg pod.ns = true)
    (hmem : pod ∈ store) :
    isOkResult (SelectPods rmatch cfg (storeClient store nodeStore) sel) = true ∧
    (okContainsPod (SelectPods rmatch cfg (storeClient store nodeStore) sel) pod = true ↔
      CheckPodMeetSelector pod sel = .ok true) := by
  have hp : ¬ sel.pods.length > 0 := by simp [hpods]
  have hS : SelectPods rmatch cfg (storeClient store nodeStore) sel =
      .ok (((((store.filter (listMatchPod
          { labelSelector :=
              if sel.labelSelectors.length > 0 then some sel.labelSelectors else none
            fieldSelector :=
              if sel.fieldSelectors.length > 0 then some sel.fieldSelectors else none })).filter
          (fun q => IsAllowedNamespaces rmatch cfg q.ns)).filter
          (fun q => selKeep (parseTokens (joinComma sel.namespaces)) [(q.ns, "")])).filter
          (fun q => selMatches (parseTokens (labelString sel.annotationSelectors))
            q.annotations)).filter
          (fun q => selKeep (parseTokens (joinComma sel.podPhaseSelectors))
            [(q.phase, "")])) := by
    rw [SelectPods, if_neg hp]
    simp only [storeClient]
    rw [if_neg (by simp [hnodes, hnodesel])]
    simp only [filterByNamespaces, parseSelector,
      filterByNamespaceSelector_eq _ _ (parseTokens_ops _),
      filterByAnnotations_eq,
      filterByPhaseSelector_eq _ _ (parseTokens_ops _)]
  constructor
  · rw [hS]
    rfl
  · rw [hS]
    rw [CheckPodMeetSelector,
      if_neg (show ¬((decide (sel.pods.length > 0) &&
        !(podsMapLoop pod false sel.pods)) = true) from by simp [hpods])]
    by_cases hlab : (decide (sel.labelSelectors.length > 0) &&
        (pod.labels.length == 0 ||
          !(selMatches (selectorFromSet sel.labelSelectors) pod.labels))) = true
    · rw [if_pos hlab]
      have hlab' := hlab
      simp only [Bool.and_eq_true, Bool.or_eq_true, decide_eq_true_eq,
        Bool.not_eq_true', beq_iff_eq] at hlab'
      obtain ⟨hlab1, hlab2⟩ := hlab'
      have hf1f : listMatchPod
          { labelSelector :=
              if sel.labelSelectors.length > 0 then some sel.labelSelectors else none
            fieldSelector :=
              if sel.fieldSelectors.length > 0 then some sel.fieldSelectors else none }
          pod = false := by
        have hsm : selMatches (selectorFromSet sel.labelSelectors) pod.labels = false := by
          rcases hlab2 with h | h
          · rw [List.length_eq_zero.mp h]
            apply selMatches_fromSet_nil
            intro hc
            rw [hc] at hlab1
            exact absurd hlab1 (by simp)
          · exact h
        simp [listMatchPod, hlab1, hsm]
      simp [okContainsPod, List.mem_filter, hf1f]
    · rw [if_neg hlab]
      simp only [parseSelector,
        filterByNamespaceSelector_eq _ _ (parseTokens_ops _),
        filterByAnnotations_eq,
        filterByPhaseSelector_eq _ _ (parseTokens_ops _)]
      have hf1 : listMatchPod
          { labelSelector :=
              if sel.labelSelectors.length > 0 then some sel.labelSelectors else none
            fieldSelector :=
              if sel.fieldSelectors.length > 0 then some sel.fieldSelectors else none }
          pod = true := by
        by_cases hls : sel.labelSelectors.length > 0
        · have hsm : selMatches (selectorFromSet sel.labelSelectors) pod.labels = true := by
            by_contra hc
            apply hlab
            have hcf : selMatches (selectorFromSet sel.labelSelectors) pod.labels = false :=
              Bool.eq_false_iff.mpr hc
            simp [hls, hcf]
          simp [listMatchPod, hfield, hls, hsm]
        · simp [listMatchPod, hfield, hls]
      by_cases h1 : selKeep (parseTokens (joinComma sel.namespaces)) [(pod.ns, "")] = true <;>
        by_cases h2 : selMatches (parseTokens (labelString sel.annotationSelectors))
          pod.annotations = true <;>
        by_cases h3 : selKeep (parseTokens (joinComma sel.podPhaseSelectors))
          [(pod.phase, "")] = true <;>
        simp [okContainsPod, List.mem_filter, List.filter_cons, h1, h2, h3, hmem,
          hallow, hf1]



/-- Witness for C2 amended: `podDW` satisfies every constraint of `selDW`
(label `app=x`, namespace `default`, annotation key `k`, phase `Running`), is
in the pipeline output, and the tester agrees. -/
theorem C2_amended_witness :
    (selDW.pods = [] ∧ IsAllowedNamespaces rmatchTrue cfg0 podDW.ns = true ∧
      podDW ∈ [podDW]) ∧
    okContainsPod (SelectPods rmatchTrue cfg0 (storeClient [podDW] []) selDW) podDW =
      true ∧
    CheckPodMeetSelector podDW selDW = .ok true := by
  have h := C2_amended rmatchTrue cfg0 [podDW] [] podDW selDW rfl rfl rfl rfl rfl
    (List.mem_singleton.mpr rfl)
  have hok : okContainsPod (SelectPods rmatchTrue cfg0 (storeClient [podDW] []) selDW)
      podDW = true := by rfl
  exact ⟨⟨rfl, rfl, List.mem_singleton.mpr rfl⟩, hok, h.2.mp hok⟩

end ChaosSelector
